import Mathlib

/-!
Verification of the extraction-and-merge pipeline in
`src/server/services/gmail-pull.py`.

JSON-like documents are modelled by the inductive type `Json`
(Python `None`/`bool`/numbers/`str`/`list`/`dict`); Python dicts are
association lists in insertion order (keys of a real Python dict are
pairwise distinct, captured by the well-formedness predicate `wfJ`).
Numbers are rationals, so Python's `0 == 0.0` (and `False == 0`) used by
`_deep_fill`'s default test is reflected by `isDefaultJ`.
-/

inductive Json where
  | null : Json
  | bool : Bool → Json
  | num : ℚ → Json
  | str : String → Json
  | arr : List Json → Json
  | obj : List (String × Json) → Json

/-- First-occurrence association lookup (Python `k in dst` / `dst[k]`). -/
def lookupJ : List (String × Json) → String → Option Json
  | [], _ => none
  | (k, v) :: rest, key => if k = key then some v else lookupJ rest key

/-- Replace the value at the first occurrence of `key` (Python `dst[k] = x`
for a present key; identity when the key is absent). -/
def setJ : List (String × Json) → String → Json → List (String × Json)
  | [], _, _ => []
  | (k, v) :: rest, key, x =>
    if k = key then (k, x) :: rest else (k, v) :: setJ rest key x

/-- Python `x in (None, "", 0, 0.0)` under Python `==` (note `False == 0`;
lists and dicts compare unequal to all four defaults). -/
def isDefaultJ : Json → Bool
  | .null => true
  | .bool b => !b
  | .num q => q == 0
  | .str s => s == ""
  | .arr _ => false
  | .obj _ => false

/-- Python truthiness of a JSON value (`if dst:`). -/
def truthyJ : Json → Bool
  | .null => false
  | .bool b => b
  | .num q => !(q == 0)
  | .str s => !(s == "")
  | .arr xs => !xs.isEmpty
  | .obj kvs => !kvs.isEmpty

def isArrJ : Json → Bool
  | .arr _ => true
  | _ => false

def isObjJ : Json → Bool
  | .obj _ => true
  | _ => false

/- `_deep_fill(dst, src)` from gmail-pull.py (lines 46-60): fill only
missing/zero/empty fields in `dst` from `src`, recursively.
`deepFillObj` is the dict branch: iterate over `src.items()` in order;
a key absent from `dst` is inserted at the end (Python dict insertion
order), a present key is deep-filled in place. -/
mutual
def deepFill : Json → Json → Json
  | .obj d, .obj s => .obj (deepFillObj d s)
  | dst, src =>
    if isArrJ dst || isArrJ src then (if truthyJ dst then dst else src)
    else if isDefaultJ dst && !isDefaultJ src then src else dst

def deepFillObj : List (String × Json) → List (String × Json) → List (String × Json)
  | d, [] => d
  | d, (k, v) :: rest =>
    match lookupJ d k with
    | none => deepFillObj (d ++ [(k, v)]) rest
    | some dv => deepFillObj (setJ d k (deepFill dv v)) rest
end

/-- No key occurs twice in an association list. -/
def keysNodup : List (String × Json) → Bool
  | [] => true
  | (k, _) :: rest => !(rest.any (fun p => p.1 = k)) && keysNodup rest

/- Well-formedness: every object's keys are pairwise distinct (true of
every value produced by Python's `json.load` or built by the mappers,
since Python dict keys are unique). -/
mutual
def wfJ : Json → Bool
  | .null => true
  | .bool _ => true
  | .num _ => true
  | .str _ => true
  | .arr xs => wfArr xs
  | .obj kvs => keysNodup kvs && wfObj kvs

def wfArr : List Json → Bool
  | [] => true
  | x :: xs => wfJ x && wfArr xs

def wfObj : List (String × Json) → Bool
  | [] => true
  | (_, v) :: rest => wfJ v && wfObj rest
end

/-- An action item as produced by the content-digest mapper and stored in
`actions.json`: `{title, owner, eta_days, reason}`. -/
structure ActionItem where
  title : String
  owner : String
  eta_days : ℤ
  reason : String
deriving DecidableEq, Repr

/- The actions merge loop of `pull_and_write` (gmail-pull.py lines 457-464):
`titles` starts as the set of existing titles; each collected action whose
title is not yet in the set is appended to the stored list and its title
added to the set; all others are dropped.  Membership in a Python set of
strings is membership in the list of titles. -/
def dedupeGo : List ActionItem → List String → List ActionItem → List ActionItem
  | acc, _, [] => acc
  | acc, titles, a :: rest =>
    if a.title ∈ titles then dedupeGo acc titles rest
    else dedupeGo (acc ++ [a]) (titles ++ [a.title]) rest

/-- The append-dedupe merge for the actions collection. -/
def appendDedupe (existing collected : List ActionItem) : List ActionItem :=
  dedupeGo existing (existing.map ActionItem.title) collected

/-! Python string primitives, modelled on `List Char` (ASCII-faithful:
`str.lower` is charwise `Char.toLower`, `str.strip` drops the ASCII
whitespace characters Python strips). -/

/-- Python whitespace for `str.strip` / regex `\s` (ASCII range). -/
def pyIsSpace (c : Char) : Bool :=
  c == ' ' || c == '\t' || c == '\n' || c == '\r' || c == '\x0b' || c == '\x0c'

def lowerCL (cs : List Char) : List Char := cs.map Char.toLower

/-- Python `str.strip()`. -/
def stripCL (cs : List Char) : List Char :=
  ((cs.dropWhile pyIsSpace).reverse.dropWhile pyIsSpace).reverse

/-- Python `str.strip(chars)`. -/
def stripCharsCL (chars : List Char) (cs : List Char) : List Char :=
  ((cs.dropWhile chars.contains).reverse.dropWhile chars.contains).reverse

def isPrefCL : List Char → List Char → Bool
  | [], _ => true
  | _ :: _, [] => false
  | n :: ns, h :: hs => n == h && isPrefCL ns hs

/-- Python `needle in hay` on strings. -/
def containsCL : List Char → List Char → Bool
  | [], needle => isPrefCL needle []
  | c :: t, needle => isPrefCL needle (c :: t) || containsCL t needle

/-- Match `needle` case-insensitively at the head, returning the rest. -/
def stripPrefCI : List Char → List Char → Option (List Char)
  | [], hay => some hay
  | _ :: _, [] => none
  | n :: ns, h :: hs => if n.toLower == h.toLower then stripPrefCI ns hs else none

/-- Python `str.splitlines()` (terminators `\n`, `\r`, `\r\n`; a trailing
terminator does not produce a final empty line). -/
def slGo : List Char → List Char → List (List Char)
  | [], acc => if acc.isEmpty then [] else [acc.reverse]
  | '\r' :: '\n' :: rs, acc => acc.reverse :: slGo rs []
  | '\r' :: rs, acc => acc.reverse :: slGo rs []
  | '\n' :: rs, acc => acc.reverse :: slGo rs []
  | c :: rs, acc => slGo rs (c :: acc)

def pySplitlines (cs : List Char) : List (List Char) := slGo cs []

/- `_find_line(text, *keywords)` (gmail-pull.py lines 28-34): first line
whose stripped form contains all keywords case-insensitively; the stripped
line is returned, `""` when none matches. -/
def findLineGo (kws : List (List Char)) : List (List Char) → List Char
  | [] => []
  | l :: ls =>
    let L := stripCL l
    if kws.all (fun k => containsCL (lowerCL L) (lowerCL k)) then L
    else findLineGo kws ls

def pyFindLine (text : List Char) (kws : List (List Char)) : List Char :=
  findLineGo kws (pySplitlines text)

/- `_extract_after(text, label)` (lines 36-40): the stripped remainder of
`text` after the first case-insensitive occurrence of `label`, `""` when
absent.  (Python lowers both strings and slices the original at the found
index; with charwise lowering this is matching the lowered label at each
position.) -/
def afterCI (label : List Char) : List Char → Option (List Char)
  | [] => if label.isEmpty then some [] else none
  | c :: t =>
    if (stripPrefCI label (c :: t)).isSome then some ((c :: t).drop label.length)
    else afterCI label t

def pyExtractAfter (text label : List Char) : List Char :=
  match afterCI label text with
  | none => []
  | some rest => stripCL rest

def digitVal (c : Char) : ℕ := c.toNat - '0'.toNat

def natOfDigits (cs : List Char) : ℕ := cs.foldl (fun n c => 10 * n + digitVal c) 0

/-- The number a regex group like `1,234.50` denotes after
`.replace(",", "")` and `float(...)`. -/
def ratOfNumGroup (g : List Char) : ℚ :=
  let g' := g.filter (fun c => !(c == ','))
  let ip := g'.takeWhile Char.isDigit
  let fp := match g'.drop ip.length with
    | '.' :: r => r
    | _ => []
  (natOfDigits ip : ℚ) + (natOfDigits fp : ℚ) / (10 : ℚ) ^ fp.length

/- `_int(s)` (lines 24-26): `re.search(r"([0-9][0-9,]*)", s)`; the first
digit starts the match, then a maximal run of digits and commas (nothing
follows the group in the pattern, so maximal munch is exact); commas are
stripped before `int(...)`. -/
def intSearch : List Char → Option (List Char)
  | [] => none
  | c :: t =>
    if c.isDigit then some (c :: t.takeWhile (fun x => x.isDigit || x == ','))
    else intSearch t

def pyInt (s : List Char) : ℕ :=
  match intSearch s with
  | none => 0
  | some g => natOfDigits (g.filter (fun c => !(c == ',')))

/- `_money(s)` (lines 16-18): `re.search(r"\$?\s*([0-9][0-9,]*(?:\.\d+)?)", s)`.
At each start position: optional `$`, then whitespace, then the group —
a digit, a maximal digit/comma run and an optional `.digits` fraction.
(Giving characters back never helps this pattern, so maximal munching at
the first matching position is exactly the regex's leftmost match.) -/
def moneyAt (cs : List Char) : Option (List Char) :=
  let cs1 := match cs with
    | '$' :: t => t
    | _ => cs
  match cs1.dropWhile pyIsSpace with
  | c :: t =>
    if c.isDigit then
      let tailpart := t.takeWhile (fun x => x.isDigit || x == ',')
      let rest := t.drop tailpart.length
      match rest with
      | '.' :: r2 =>
        let frac := r2.takeWhile Char.isDigit
        if frac.isEmpty then some (c :: tailpart)
        else some ((c :: tailpart) ++ '.' :: frac)
      | _ => some (c :: tailpart)
    else none
  | [] => none

def moneySearch : List Char → Option (List Char)
  | [] => none
  | c :: t =>
    match moneyAt (c :: t) with
    | some g => some g
    | none => moneySearch t

def pyMoney (s : List Char) : ℚ :=
  match moneySearch s with
  | none => 0
  | some g => ratOfNumGroup g

/- `_percent(s)` (lines 20-22): `re.search(r"([+-]?\d+(?:\.\d+)?)\s*%", s)`.
Optional sign, digits, optional fraction, whitespace, `%`; backtracking
cannot rescue a failed maximal munch (the next pattern characters `\s` and
`%` never match a digit, a dot or a sign), so the implementation munches
maximally and fails to the next start position. -/
def percentAt (cs : List Char) : Option ℚ :=
  let sgn : ℚ := match cs with
    | '+' :: _ => 1
    | '-' :: _ => -1
    | _ => 1
  let cs1 := match cs with
    | '+' :: t => t
    | '-' :: t => t
    | _ => cs
  match cs1 with
  | c :: t =>
    if c.isDigit then
      let ip := c :: t.takeWhile Char.isDigit
      let rest := t.drop (ip.length - 1)
      let fr := match rest with
        | '.' :: r2 =>
          let f := r2.takeWhile Char.isDigit
          if f.isEmpty then (([] : List Char), rest) else (f, r2.drop f.length)
        | _ => ([], rest)
      match fr.2.dropWhile pyIsSpace with
      | '%' :: _ =>
        some (sgn * ((natOfDigits ip : ℚ) + (natOfDigits fr.1 : ℚ) / (10 : ℚ) ^ fr.1.length))
      | _ => none
    else none
  | [] => none

def percentSearch : List Char → Option ℚ
  | [] => none
  | c :: t =>
    match percentAt (c :: t) with
    | some q => some q
    | none => percentSearch t

def pyPercent (s : List Char) : ℚ :=
  match percentSearch s with
  | none => 0
  | some q => q

/- `_quoted(text)` (lines 42-44): the regex literal in the source is the
concatenation `[\"''']([^"''']{2,})["''']` — an ASCII quote class of `"`
and `'`.  Leftmost match: an opening quote, at least two characters that
are no quotes (maximal munch is exact: the run necessarily stops at the
closing quote), and any closing quote.  Both the group and the result are
stripped. -/
def quoteClass (c : Char) : Bool := c == '"' || c == '\''

def quotedSearch : List Char → Option (List Char)
  | [] => none
  | c :: t =>
    if quoteClass c then
      let grp := t.takeWhile (fun x => !quoteClass x)
      if 2 ≤ grp.length && grp.length < t.length then some grp
      else quotedSearch t
    else quotedSearch t

def pyQuoted (s : List Char) : List Char :=
  match quotedSearch s with
  | none => []
  | some g => stripCL (stripCL g)

/- The composite MRR pattern of `map_ceo_to_scoreboard` (line 175):
`Net\s*New\s*MRR[:\s]+\$?\s*([0-9,]+)(?:.*?target[^$]*\$?\s*([0-9,]+))?`
with `re.I|re.S`.  The head is deterministic (maximal munching is exact for
each of its pieces).  In the optional tail, `.*?` is lazy — occurrences of
`target` are tried left to right — and `[^$]*` is greedy — splits are
tried longest first (`mrrTailK` counts the split length down); the first
combination whose `\$?\s*([0-9,]+)` suffix matches wins. -/
def mrrTailTry (r : List Char) (k : ℕ) : Option (List Char) :=
  let u := r.drop k
  let u1 := match u with
    | '$' :: t => t
    | _ => u
  let g := (u1.dropWhile pyIsSpace).takeWhile (fun c => c.isDigit || c == ',')
  if !g.isEmpty then some g else none

def mrrTailK (r : List Char) : ℕ → Option (List Char)
  | 0 => mrrTailTry r 0
  | k + 1 =>
    match mrrTailTry r (k + 1) with
    | some g => some g
    | none => mrrTailK r k

def mrrTailAt (r : List Char) : Option (List Char) :=
  mrrTailK r (r.takeWhile (fun c => !(c == '$'))).length

def mrrTailSearch : List Char → Option (List Char)
  | [] => none
  | c :: t =>
    match stripPrefCI "target".data (c :: t) with
    | some r =>
      match mrrTailAt r with
      | some g => some g
      | none => mrrTailSearch t
    | none => mrrTailSearch t

def mrrHeadAt (cs : List Char) : Option (List Char × List Char) :=
  match stripPrefCI "net".data cs with
  | none => none
  | some r1 =>
    match stripPrefCI "new".data (r1.dropWhile pyIsSpace) with
    | none => none
    | some r2 =>
      match stripPrefCI "mrr".data (r2.dropWhile pyIsSpace) with
      | none => none
      | some r3 =>
        let sep := r3.takeWhile (fun c => c == ':' || pyIsSpace c)
        if sep.isEmpty then none
        else
          let r4 := r3.drop sep.length
          let r5 := match r4 with
            | '$' :: t => t
            | _ => r4
          let r6 := r5.dropWhile pyIsSpace
          let g1 := r6.takeWhile (fun c => c.isDigit || c == ',')
          if g1.isEmpty then none
          else some (g1, r6.drop g1.length)

/-- `re.search` of the MRR pattern: leftmost head match; the optional tail
is then matched against the remainder (group 2 is `none` when it fails). -/
def mrrSearch : List Char → Option (List Char × Option (List Char))
  | [] => none
  | c :: t =>
    match mrrHeadAt (c :: t) with
    | some (g1, rest) => some (g1, mrrTailSearch rest)
    | none => mrrSearch t

/- `re.search(r"mttr[:\s]+([0-9]+(?:\.[0-9]+)?)\s*m", lines, re.I)`
(line 191). -/
def mttrAt (cs : List Char) : Option ℚ :=
  match stripPrefCI "mttr".data cs with
  | none => none
  | some r1 =>
    let sep := r1.takeWhile (fun c => c == ':' || pyIsSpace c)
    if sep.isEmpty then none
    else
      match r1.drop sep.length with
      | c :: t =>
        if c.isDigit then
          let ip := c :: t.takeWhile Char.isDigit
          let rest := t.drop (ip.length - 1)
          let fr := match rest with
            | '.' :: r2 =>
              let f := r2.takeWhile Char.isDigit
              if f.isEmpty then (([] : List Char), rest) else (f, r2.drop f.length)
            | _ => ([], rest)
          match fr.2.dropWhile pyIsSpace with
          | m :: _ =>
            if m.toLower == 'm' then
              some ((natOfDigits ip : ℚ) + (natOfDigits fr.1 : ℚ) / (10 : ℚ) ^ fr.1.length)
            else none
          | [] => none
        else none
      | [] => none

def mttrSearch : List Char → Option ℚ
  | [] => none
  | c :: t =>
    match mttrAt (c :: t) with
    | some q => some q
    | none => mttrSearch t

/- `re.search(r"([0-9]+)\s*h", L, re.I)` (line 229). -/
def deadlineAt : List Char → Option ℕ
  | [] => none
  | c :: t =>
    if c.isDigit then
      let ds := c :: t.takeWhile Char.isDigit
      match (t.drop (ds.length - 1)).dropWhile pyIsSpace with
      | h :: _ => if h.toLower == 'h' then some (natOfDigits ds) else none
      | [] => none
    else none

def deadlineSearch : List Char → Option ℕ
  | [] => none
  | c :: t =>
    match deadlineAt (c :: t) with
    | some n => some n
    | none => deadlineSearch t

/- `re.search(r'Bottleneck[:\s](.+?)[\r\n]', text, re.I)` of
`map_operational_to_insights` (line 350): the literal `bottleneck`
case-insensitively, ONE separator character (`:` or whitespace — `\n`
included), then a lazy non-empty run of `.`-characters (anything except
`\n`; `\r` is allowed), terminated by the first following `\r` or `\n`.
A final line without a trailing line terminator therefore never matches. -/
def bottleneckAt (cs : List Char) : Option (List Char) :=
  match stripPrefCI "bottleneck".data cs with
  | none => none
  | some r =>
    match r with
    | sep :: r2 =>
      if sep == ':' || pyIsSpace sep then
        match r2 with
        | [] => none
        | c :: rest =>
          if c == '\n' then none
          else
            let pre := rest.takeWhile (fun x => !(x == '\r') && !(x == '\n'))
            if pre.length == rest.length then none
            else some (c :: pre)
      else none
    | [] => none

def bottleneckSearch : List Char → Option (List Char)
  | [] => none
  | c :: t =>
    match bottleneckAt (c :: t) with
    | some g => some g
    | none => bottleneckSearch t

/-- The scoreboard record built by `map_ceo_to_scoreboard` (lines 164-172),
field paths flattened (`revenue.realized_week` ↦ `revenue_realized_week`). -/
structure Scoreboard where
  date : String
  revenue_realized_week : ℚ
  revenue_target_week : ℚ
  revenue_upsells : ℚ
  initiatives_on_time_pct : ℚ
  initiatives_risk_inverted : ℚ
  initiatives_resource_ok_pct : ℚ
  initiatives_dependency_clear_pct : ℚ
  alignment_work_tied_to_objectives_pct : ℚ
  autonomy_auto_resolve_pct : ℚ
  autonomy_mttr_min : ℚ
  risk_score : ℕ
  risk_high : ℕ
  risk_medium : ℕ
  risk_next_deadline_hours : ℕ
  narrative_topic : String
  narrative_linkedin_er_delta_pct : ℚ
  narrative_email_ctr_delta_pct : ℚ
  narrative_quiz_to_paid_delta_pct : ℚ
  narrative_conversions : ℕ
deriving DecidableEq, Repr

/-- `text.replace("→", "->")` (line 163). -/
def arrowNorm : List Char → List Char
  | [] => []
  | c :: t => if c == '→' then '-' :: '>' :: arrowNorm t else c :: arrowNorm t

/- The per-field extractions of `map_ceo_to_scoreboard`, each a direct
transcription of its `L = _find_line(...); if L: out[...] = ...` block.
Every numeric field starts at 0 and is assigned at most once, so the final
value is the conditional below. -/

def upsellsOf (lines : List Char) : ℚ :=
  let L := pyFindLine lines ["upsell".data]
  if !L.isEmpty then pyMoney L else 0

def autonomyOf (lines : List Char) : ℚ :=
  let L := pyFindLine lines ["autonomy".data]
  if !L.isEmpty then pyPercent L else 0

def mttrOf (lines : List Char) : ℚ :=
  match mttrSearch lines with
  | some q => q
  | none => 0

def quizPaidOf (lines : List Char) : ℚ :=
  let L := pyFindLine lines ["quiz".data, "paid".data]
  if !L.isEmpty then pyPercent L else 0

def linkedinEROf (lines : List Char) : ℚ :=
  let L := pyFindLine lines ["linkedin".data, "er".data]
  if !L.isEmpty then pyPercent L else 0

def emailCtrOf (lines : List Char) : ℚ :=
  let L := pyFindLine lines ["email".data, "ctr".data]
  if !L.isEmpty then pyPercent L else 0

def conversionsOf (lines : List Char) : ℕ :=
  let L0 := pyFindLine lines ["conversion".data]
  let L := if L0.isEmpty then pyFindLine lines ["paid".data] else L0
  if !L.isEmpty then (if pyInt L ≠ 0 then pyInt L else 0) else 0

def riskHighOf (lines : List Char) : ℕ :=
  let L := pyFindLine lines ["high".data]
  if !L.isEmpty then max 0 (pyInt L) else 0

def riskMediumOf (lines : List Char) : ℕ :=
  let L := pyFindLine lines ["medium".data]
  if !L.isEmpty then max 0 (pyInt L) else 0

def riskScoreOf (lines : List Char) : ℕ :=
  let L := pyFindLine lines ["risk".data, "score".data]
  if !L.isEmpty then max 0 (pyInt L) else 0

def deadlineOf (lines : List Char) : ℕ :=
  let L := pyFindLine lines ["deadline".data]
  if !L.isEmpty then
    match deadlineSearch L with
    | some n => n
    | none => 0
  else 0

/- Lines 175-180: the MRR step.  `float(m.group(1).replace(",", ""))`
raises `ValueError` when the `[0-9,]+` group is commas only — modelled by
`Except.error`. -/
def floatDC (g : List Char) : Except Unit ℚ :=
  let ds := g.filter (fun c => !(c == ','))
  if ds.isEmpty then Except.error () else Except.ok (natOfDigits ds : ℚ)

def mrrStep (lines : List Char) : Except Unit (ℚ × ℚ) :=
  match mrrSearch lines with
  | none => Except.ok (0, 0)
  | some (g1, g2) =>
    match floatDC g1 with
    | Except.error e => Except.error e
    | Except.ok realized =>
      match g2 with
      | some g =>
        match floatDC g with
        | Except.error e => Except.error e
        | Except.ok target => Except.ok (realized, target)
      | none => Except.ok (realized, 0)

/- Lines 213-220: the narrative-topic step.  `"".splitlines()` is `[]`, so
`_extract_after(...).splitlines()[0]` raises `IndexError` whenever the
extraction is empty — modelled by `Except.error`. -/
def topicStep (lines : List Char) : Except Unit (List Char) :=
  let L := pyFindLine lines ["top theme".data]
  let q := pyQuoted L
  let first : Except Unit (List Char) :=
    if !q.isEmpty then Except.ok q
    else
      let e := pyExtractAfter (if !L.isEmpty then L else lines) ("Top theme:".data)
      match pySplitlines e with
      | [] => Except.error ()
      | x :: _ => Except.ok (stripCL x)
  match first with
  | Except.error e => Except.error e
  | Except.ok topic =>
    if !topic.isEmpty then Except.ok topic
    else
      let L2 := pyFindLine lines ["narrative:".data]
      let e2 := pyExtractAfter (if !L2.isEmpty then L2 else []) ("narrative:".data)
      match pySplitlines e2 with
      | [] => Except.error ()
      | x :: _ => Except.ok (stripCL x)

/-- `map_ceo_to_scoreboard(text)` (lines 149-235).  `today` stands for
`datetime.now().date().isoformat()`.  An `Except.error` is a raised
exception (`ValueError` from the MRR floats or `IndexError` from the topic
step). -/
def mapCeo (today : String) (text : String) : Except Unit Scoreboard :=
  let lines := arrowNorm text.data
  match mrrStep lines with
  | Except.error e => Except.error e
  | Except.ok rt =>
    match topicStep lines with
    | Except.error e => Except.error e
    | Except.ok topic =>
      Except.ok
        { date := today
          revenue_realized_week := rt.1
          revenue_target_week := rt.2
          revenue_upsells := upsellsOf lines
          initiatives_on_time_pct := 0
          initiatives_risk_inverted := 0
          initiatives_resource_ok_pct := 0
          initiatives_dependency_clear_pct := 0
          alignment_work_tied_to_objectives_pct := 0
          autonomy_auto_resolve_pct := autonomyOf lines
          autonomy_mttr_min := mttrOf lines
          risk_score := riskScoreOf lines
          risk_high := riskHighOf lines
          risk_medium := riskMediumOf lines
          risk_next_deadline_hours := deadlineOf lines
          narrative_topic :=
            if !topic.isEmpty then ⟨stripCharsCL [' ', '.'] topic⟩ else ""
          narrative_linkedin_er_delta_pct := linkedinEROf lines
          narrative_email_ctr_delta_pct := emailCtrOf lines
          narrative_quiz_to_paid_delta_pct := quizPaidOf lines
          narrative_conversions := conversionsOf lines }

/-- `{type, insight, confidence, source, timestamp}` (`type` renamed
`itype`). -/
structure InsightR where
  itype : String
  insight : String
  confidence : ℚ
  source : String
  timestamp : String
deriving DecidableEq, Repr

structure DecisionR where
  decision : String
  impact : String
  owner : String
  due : String
  rationale : String
deriving DecidableEq, Repr

/-- `map_operational_to_insights(text)` (lines 342-368); `nowIso` stands
for `datetime.now().isoformat()` and `duePlus3` for
`(datetime.now() + timedelta(days=3)).date().isoformat()`. -/
def mapOperational (nowIso duePlus3 : String) (text : String) :
    List InsightR × List DecisionR :=
  match bottleneckSearch text.data with
  | some g =>
    ([{ itype := "operational_risk"
        insight := "Process bottleneck identified: " ++ (⟨stripCL g⟩ : String)
        confidence := 4 / 5
        source := "operational_email"
        timestamp := nowIso }],
     [{ decision := "Resolve bottleneck: " ++ (⟨stripCL g⟩ : String)
        impact := "high"
        owner := "COO"
        due := duePlus3
        rationale := "Critical operational efficiency issue" }])
  | none => ([], [])

/-- Modelled from the spec (C3): "take the MAXIMUM across all matching
lines" — the maximum of the integers parsed from EVERY line containing the
keyword, for comparison with what the code computes. -/
def specRiskMaxLines (text : List Char) (kw : List Char) : ℕ :=
  ((pySplitlines text).filter
      (fun l => containsCL (lowerCL (stripCL l)) (lowerCL kw))).foldl
    (fun acc l => max acc (pyInt (stripCL l))) 0

/-- Concrete executive-summary body whose "high" keyword appears on two
lines with different integers. -/
def c3Body : String := "Top theme: x\nhigh 2\nhigh 5"

/-- What `map_ceo_to_scoreboard` produces on `c3Body` (all defaults except
the topic and `risk_high = 2`, the FIRST matching line's value). -/
def c3Sb : Scoreboard :=
  { date := "d"
    revenue_realized_week := 0
    revenue_target_week := 0
    revenue_upsells := 0
    initiatives_on_time_pct := 0
    initiatives_risk_inverted := 0
    initiatives_resource_ok_pct := 0
    initiatives_dependency_clear_pct := 0
    alignment_work_tied_to_objectives_pct := 0
    autonomy_auto_resolve_pct := 0
    autonomy_mttr_min := 0
    risk_score := 0
    risk_high := 2
    risk_medium := 0
    risk_next_deadline_hours := 0
    narrative_topic := "x"
    narrative_linkedin_er_delta_pct := 0
    narrative_email_ctr_delta_pct := 0
    narrative_quiz_to_paid_delta_pct := 0
    narrative_conversions := 0 }

/-! The body normalizer `_parse_body` (gmail-pull.py lines 118-136). -/

/-- A Gmail payload node: a MIME type, optional base64 body data
(`body.data`), and nested parts. -/
inductive Payload where
  | mk (mimeType : String) (bodyData : Option String) (parts : List Payload)

/-- The `{html, text}` pair `_parse_body` returns. -/
structure BodyPair where
  html : String
  text : String
deriving DecidableEq, Repr

/-- Value of a base64 alphabet character (after urlsafe translation). -/
def b64Val (c : Char) : Option ℕ :=
  if 'A' ≤ c ∧ c ≤ 'Z' then some (c.toNat - 'A'.toNat)
  else if 'a' ≤ c ∧ c ≤ 'z' then some (c.toNat - 'a'.toNat + 26)
  else if '0' ≤ c ∧ c ≤ '9' then some (c.toNat - '0'.toNat + 52)
  else if c = '+' then some 62
  else if c = '/' then some 63
  else none

def b64Translate (c : Char) : Char :=
  if c == '-' then '+' else if c == '_' then '/' else c

def b64Keep (c : Char) : Bool := (b64Val c).isSome || c == '='

/-- Decode filtered base64 characters in groups of four; `=`-padding is
only legal at the tail.  `none` models the `binascii.Error` Python's
`base64.urlsafe_b64decode` raises on a leftover group or misplaced
padding (e.g. `"x"` or `"YQ"` raise, `"YQ=="` decodes). -/
def b64Groups : List Char → Option (List ℕ)
  | [] => some []
  | a :: b :: '=' :: '=' :: rest =>
    match b64Val a, b64Val b, rest with
    | some va, some vb, [] => some [va * 4 + vb / 16]
    | _, _, _ => none
  | a :: b :: c :: '=' :: rest =>
    match b64Val a, b64Val b, b64Val c, rest with
    | some va, some vb, some vc, [] =>
      some [va * 4 + vb / 16, (vb % 16) * 16 + vc / 4]
    | _, _, _, _ => none
  | a :: b :: c :: d :: rest =>
    match b64Val a, b64Val b, b64Val c, b64Val d, b64Groups rest with
    | some va, some vb, some vc, some vd, some bs =>
      some ([va * 4 + vb / 16, (vb % 16) * 16 + vc / 4, (vc % 4) * 64 + vd] ++ bs)
    | _, _, _, _, _ => none
  | _ => none

/-- `base64.urlsafe_b64decode(s)`: translate `-_` to `+/`, skip characters
outside the alphabet (non-strict mode), decode; `none` is a raised
`binascii.Error`. -/
def b64decode (s : String) : Option (List ℕ) :=
  b64Groups ((s.data.map b64Translate).filter b64Keep)

/- The recursive `walk` of `_parse_body`.  `rh` stands for the composition
of `BeautifulSoup`/`str(soup)`/`html2text` applied to the decoded bytes
(returning the `(html, text)` pair of the `text/html` branch) and `dp` for
`raw.decode("utf-8", "ignore")` — external total library functions the
results are proved for all of.  A node's parts are searched first and the
first returned pair wins; then the node's own body bytes are decoded
(BEFORE the MIME check, hence a decode error fires for any MIME type), and
`"text/html" in mime` is preferred over `"text/plain" in mime`;
`Except.error` is a raised exception. -/

/-- One body-carrying node: decode (a raised `binascii.Error` when the
base64 is invalid), then dispatch on the MIME type; `ok none` means the
walk continues past this node. -/
def candStep (rh : List ℕ → String × String) (dp : List ℕ → String)
    (m d : String) : Except Unit (Option BodyPair) :=
  match b64decode d with
  | none => Except.error ()
  | some raw =>
    if containsCL m.data ("text/html".data) then
      Except.ok (some ⟨(rh raw).1, (rh raw).2⟩)
    else if containsCL m.data ("text/plain".data) then
      Except.ok (some ⟨"", dp raw⟩)
    else Except.ok none

/-- A node's own contribution after its parts failed (`if body:` — empty
or missing data contributes nothing). -/
def nodeBody (rh : List ℕ → String × String) (dp : List ℕ → String)
    (mime : String) (bdata : Option String) : Except Unit (Option BodyPair) :=
  match bdata with
  | some s => if !s.isEmpty then candStep rh dp mime s else Except.ok none
  | none => Except.ok none

mutual
def walkP (rh : List ℕ → String × String) (dp : List ℕ → String) :
    Payload → Except Unit (Option BodyPair)
  | .mk mime bdata parts =>
    match walkParts rh dp parts with
    | Except.error e => Except.error e
    | Except.ok (some b) => Except.ok (some b)
    | Except.ok none => nodeBody rh dp mime bdata

def walkParts (rh : List ℕ → String × String) (dp : List ℕ → String) :
    List Payload → Except Unit (Option BodyPair)
  | [] => Except.ok none
  | p :: ps =>
    match walkP rh dp p with
    | Except.error e => Except.error e
    | Except.ok (some b) => Except.ok (some b)
    | Except.ok none => walkParts rh dp ps
end

/-- `_parse_body(payload)`: `walk(payload) or {"html":"", "text":""}`. -/
def parseBody (rh : List ℕ → String × String) (dp : List ℕ → String)
    (p : Payload) : Except Unit BodyPair :=
  match walkP rh dp p with
  | Except.error e => Except.error e
  | Except.ok (some b) => Except.ok b
  | Except.ok none => Except.ok ⟨"", ""⟩

/-- The candidate a node's own body contributes to the walk order. -/
def ownCand (mime : String) (bdata : Option String) : List (String × String) :=
  match bdata with
  | some s => if !s.isEmpty then [(mime, s)] else []
  | none => []

/- The `(mimeType, bodyData)` pairs of the nodes carrying non-empty body
data, in the walk's visiting order (children first, parts left to right,
then the node itself). -/
mutual
def cands : Payload → List (String × String)
  | .mk mime bdata parts => candsList parts ++ ownCand mime bdata

def candsList : List Payload → List (String × String)
  | [] => []
  | p :: ps => cands p ++ candsList ps
end

/-- Linear reference pass over the candidate nodes: process each with
`candStep`, stopping at the first error or returned pair. -/
def scanCands (rh : List ℕ → String × String) (dp : List ℕ → String) :
    List (String × String) → Except Unit (Option BodyPair)
  | [] => Except.ok none
  | (m, d) :: rest =>
    match candStep rh dp m d with
    | Except.error e => Except.error e
    | Except.ok (some b) => Except.ok (some b)
    | Except.ok none => scanCands rh dp rest

/-- All body-carrying nodes of the tree hold decodable base64. -/
def allValidB64 (p : Payload) : Bool :=
  (cands p).all (fun c => (b64decode c.2).isSome)

/-! The write phase of `pull_and_write` (gmail-pull.py lines 429-506):
after the message loop, each of the five store documents is read, merged
and rewritten — but only when the corresponding collected batch is
non-empty.  A persisted document is `absent` (no file), `corrupt` (the
file exists but `open`/`json.load` raises — caught by the bare `except`)
or `present` with its parsed, well-typed value. -/

inductive FileState (α : Type) where
  | absent : FileState α
  | corrupt : FileState α
  | present : α → FileState α

/-- Read-with-default: lines 433-440 (and the four analogous blocks) —
a present document yields its value, a missing file or a failing
`json.load` yields the default. -/
def readOr {α : Type} (d : α) : FileState α → α
  | .present a => a
  | _ => d

structure Store where
  scoreboard : FileState Json
  actions : FileState (List ActionItem)
  meetings : FileState (List Json)
  insights : FileState (List InsightR)
  decisions : FileState (List DecisionR)

/-- What the message loop accumulated: `ceo_scoreboard` (None until a CEO
summary was mapped) and the four collected lists. -/
structure Collected where
  ceo : Option Json
  actions : List ActionItem
  meetings : List Json
  insights : List InsightR
  decisions : List DecisionR

inductive DocId where
  | scoreboard : DocId
  | actions : DocId
  | meetings : DocId
  | insights : DocId
  | decisions : DocId
deriving DecidableEq, Repr

/-- `if ceo_scoreboard:` — Python truthiness of the optional dict. -/
def ceoGuard : Option Json → Bool
  | none => false
  | some j => truthyJ j

/-- A store together with the documents read and written so far. -/
structure RunOut where
  store : Store
  reads : List DocId
  writes : List DocId

def stepScoreboard (c : Collected) (r : RunOut) : RunOut :=
  match c.ceo with
  | some j =>
    if truthyJ j then
      { store := { r.store with
          scoreboard := .present (deepFill (readOr (Json.obj []) r.store.scoreboard) j) }
        reads := r.reads ++ [DocId.scoreboard]
        writes := r.writes ++ [DocId.scoreboard] }
    else r
  | none => r

def stepActions (c : Collected) (r : RunOut) : RunOut :=
  if !c.actions.isEmpty then
    { store := { r.store with
        actions := .present (appendDedupe (readOr [] r.store.actions) c.actions) }
      reads := r.reads ++ [DocId.actions]
      writes := r.writes ++ [DocId.actions] }
  else r

def stepMeetings (c : Collected) (r : RunOut) : RunOut :=
  if !c.meetings.isEmpty then
    { store := { r.store with
        meetings := .present (readOr [] r.store.meetings ++ c.meetings) }
      reads := r.reads ++ [DocId.meetings]
      writes := r.writes ++ [DocId.meetings] }
  else r

def stepInsights (c : Collected) (r : RunOut) : RunOut :=
  if !c.insights.isEmpty then
    { store := { r.store with
        insights := .present (readOr [] r.store.insights ++ c.insights) }
      reads := r.reads ++ [DocId.insights]
      writes := r.writes ++ [DocId.insights] }
  else r

def stepDecisions (c : Collected) (r : RunOut) : RunOut :=
  if !c.decisions.isEmpty then
    { store := { r.store with
        decisions := .present (readOr [] r.store.decisions ++ c.decisions) }
      reads := r.reads ++ [DocId.decisions]
      writes := r.writes ++ [DocId.decisions] }
  else r

/-- The whole write phase, blocks in source order. -/
def writePhase (c : Collected) (st : Store) : RunOut :=
  stepDecisions c (stepInsights c (stepMeetings c (stepActions c
    (stepScoreboard c { store := st, reads := [], writes := [] }))))

-- ===================== proofs =====================

section DeepFillLemmas

lemma deepFillObj_cons_none {d : List (String × Json)} {k : String} {v : Json}
    {rest : List (String × Json)} (h : lookupJ d k = none) :
    deepFillObj d ((k, v) :: rest) = deepFillObj (d ++ [(k, v)]) rest := by
  rw [deepFillObj, h]

lemma deepFillObj_cons_some {d : List (String × Json)} {k : String} {v dv : Json}
    {rest : List (String × Json)} (h : lookupJ d k = some dv) :
    deepFillObj d ((k, v) :: rest) = deepFillObj (setJ d k (deepFill dv v)) rest := by
  rw [deepFillObj, h]

lemma lookupJ_setJ_self {l : List (String × Json)} {k : String} {dv : Json}
    (h : lookupJ l k = some dv) (x : Json) : lookupJ (setJ l k x) k = some x := by
  induction l with
  | nil => simp [lookupJ] at h
  | cons p rest ih =>
    obtain ⟨k0, v0⟩ := p
    by_cases hk : k0 = k
    · subst hk; simp [setJ, lookupJ]
    · rw [lookupJ, if_neg hk] at h
      rw [setJ, if_neg hk, lookupJ, if_neg hk]
      exact ih h

lemma lookupJ_setJ_ne {l : List (String × Json)} {k' k : String} (h : k' ≠ k)
    (x : Json) : lookupJ (setJ l k' x) k = lookupJ l k := by
  induction l with
  | nil => simp [setJ]
  | cons p rest ih =>
    obtain ⟨k0, v0⟩ := p
    by_cases hk : k0 = k'
    · subst hk
      rw [setJ, if_pos rfl, lookupJ, if_neg h, lookupJ, if_neg h]
    · rw [setJ, if_neg hk, lookupJ, lookupJ]
      by_cases hk2 : k0 = k
      · rw [if_pos hk2, if_pos hk2]
      · rw [if_neg hk2, if_neg hk2, ih]

lemma setJ_eq_self {l : List (String × Json)} {k : String} {x : Json}
    (h : lookupJ l k = some x) : setJ l k x = l := by
  induction l with
  | nil => simp [setJ]
  | cons p rest ih =>
    obtain ⟨k0, v0⟩ := p
    by_cases hk : k0 = k
    · subst hk
      rw [lookupJ, if_pos rfl] at h
      injection h with h
      rw [setJ, if_pos rfl, h]
    · rw [lookupJ, if_neg hk] at h
      rw [setJ, if_neg hk, ih h]

lemma lookupJ_append_single_self {l : List (String × Json)} {k : String}
    (h : lookupJ l k = none) (v : Json) : lookupJ (l ++ [(k, v)]) k = some v := by
  induction l with
  | nil => simp [lookupJ]
  | cons p rest ih =>
    obtain ⟨k0, v0⟩ := p
    by_cases hk : k0 = k
    · rw [lookupJ, if_pos hk] at h
      exact absurd h (by simp)
    · rw [lookupJ, if_neg hk] at h
      rw [List.cons_append, lookupJ, if_neg hk]
      exact ih h

lemma lookupJ_append_single_ne {l : List (String × Json)} {k' k : String}
    (h : k' ≠ k) (v : Json) : lookupJ (l ++ [(k', v)]) k = lookupJ l k := by
  induction l with
  | nil => simp [lookupJ, h]
  | cons p rest ih =>
    obtain ⟨k0, v0⟩ := p
    by_cases hk : k0 = k
    · rw [List.cons_append, lookupJ, if_pos hk, lookupJ, if_pos hk]
    · rw [List.cons_append, lookupJ, if_neg hk, lookupJ, if_neg hk]
      exact ih

lemma lookupJ_eq_none_of_not_any {l : List (String × Json)} {k : String}
    (h : l.any (fun p => p.1 = k) = false) : lookupJ l k = none := by
  induction l with
  | nil => rfl
  | cons p rest ih =>
    obtain ⟨k0, v0⟩ := p
    simp only [List.any_cons, Bool.or_eq_false_iff, decide_eq_false_iff_not] at h
    rw [lookupJ, if_neg h.1]
    exact ih (by simpa using h.2)

lemma lookupJ_deepFillObj_not_mem {s : List (String × Json)} {k : String}
    (h : s.any (fun p => p.1 = k) = false) :
    ∀ d, lookupJ (deepFillObj d s) k = lookupJ d k := by
  induction s with
  | nil => intro d; rfl
  | cons p rest ih =>
    obtain ⟨k0, v0⟩ := p
    simp only [List.any_cons, Bool.or_eq_false_iff, decide_eq_false_iff_not] at h
    have hrest : rest.any (fun p => p.1 = k) = false := by
      simpa using h.2
    intro d
    cases hl : lookupJ d k0 with
    | none =>
      rw [deepFillObj_cons_none hl, ih hrest, lookupJ_append_single_ne h.1]
    | some dv =>
      rw [deepFillObj_cons_some hl, ih hrest, lookupJ_setJ_ne h.1]

lemma keysNodup_cons {k : String} {v : Json} {rest : List (String × Json)}
    (h : keysNodup ((k, v) :: rest) = true) :
    rest.any (fun p => p.1 = k) = false ∧ keysNodup rest = true := by
  rw [keysNodup, Bool.and_eq_true, Bool.not_eq_true'] at h
  exact h

lemma lookupJ_of_nodup_mem {l : List (String × Json)} (hnd : keysNodup l = true)
    {p : String × Json} (hp : p ∈ l) : lookupJ l p.1 = some p.2 := by
  induction l with
  | nil => simp at hp
  | cons q rest ih =>
    obtain ⟨k0, v0⟩ := q
    obtain ⟨hany, hrest⟩ := keysNodup_cons hnd
    rcases List.mem_cons.mp hp with h | h
    · subst h; rw [lookupJ, if_pos rfl]
    · have hk : k0 ≠ p.1 := by
        intro he
        rw [List.any_eq_false] at hany
        have := hany p h
        simp only [decide_eq_true_eq] at this
        exact this he.symm
      rw [lookupJ, if_neg hk]
      exact ih hrest h

lemma wfObj_mem {l : List (String × Json)} (h : wfObj l = true)
    {p : String × Json} (hp : p ∈ l) : wfJ p.2 = true := by
  induction l with
  | nil => simp at hp
  | cons q rest ih =>
    obtain ⟨k0, v0⟩ := q
    rw [wfObj, Bool.and_eq_true] at h
    rcases List.mem_cons.mp hp with he | he
    · subst he; exact h.1
    · exact ih h.2 he

lemma wfJ_obj {l : List (String × Json)} (h : wfJ (Json.obj l) = true) :
    keysNodup l = true ∧ wfObj l = true := by
  rw [wfJ, Bool.and_eq_true] at h
  exact h

/-- The non-dict branches of `_deep_fill` in closed form. -/
lemma deepFill_cases (dst src : Json) (hno : ¬(isObjJ dst = true ∧ isObjJ src = true)) :
    deepFill dst src =
      if isArrJ dst || isArrJ src then (if truthyJ dst then dst else src)
      else if isDefaultJ dst && !isDefaultJ src then src else dst := by
  cases dst <;> cases src <;> simp_all [deepFill, isObjJ, isArrJ]

/-- Filling an association list with entries it already contains (at first
occurrence, with self-absorbing values) is the identity. -/
lemma deepFillObj_id {s : List (String × Json)} :
    ∀ d, (∀ p ∈ s, lookupJ d p.1 = some p.2) →
    (∀ p ∈ s, deepFill p.2 p.2 = p.2) → deepFillObj d s = d := by
  induction s with
  | nil => intro d _ _; rfl
  | cons q rest ih =>
    obtain ⟨k, v⟩ := q
    intro d hl hs
    have hlk : lookupJ d k = some v := hl (k, v) (List.mem_cons_self _ _)
    rw [deepFillObj_cons_some hlk, hs (k, v) (List.mem_cons_self _ _), setJ_eq_self hlk]
    exact ih d (fun p hp => hl p (List.mem_cons_of_mem _ hp))
      (fun p hp => hs p (List.mem_cons_of_mem _ hp))

mutual
theorem deepFill_self : ∀ v : Json, wfJ v = true → deepFill v v = v
  | .null, _ => by simp [deepFill, isArrJ, isDefaultJ]
  | .bool b, _ => by simp [deepFill, isArrJ, isDefaultJ]
  | .num q, _ => by simp [deepFill, isArrJ, isDefaultJ]
  | .str s, _ => by simp [deepFill, isArrJ, isDefaultJ]
  | .arr xs, _ => by simp [deepFill, isArrJ]
  | .obj l, h => by
    obtain ⟨hnd, hwf⟩ := wfJ_obj h
    rw [deepFill]
    rw [deepFillObj_id l (fun p hp => lookupJ_of_nodup_mem hnd hp)
      (fun p hp => deepFill_self_obj l hwf p hp)]

theorem deepFill_self_obj : ∀ l : List (String × Json), wfObj l = true →
    ∀ p ∈ l, deepFill p.2 p.2 = p.2
  | [], _, p, hp => by simp at hp
  | (k0, v0) :: rest, h, p, hp => by
    rw [wfObj, Bool.and_eq_true] at h
    rcases List.mem_cons.mp hp with he | he
    · subst he; exact deepFill_self v0 h.1
    · exact deepFill_self_obj rest h.2 p he
end

/-- Running the dict branch of `_deep_fill` a second time with the same
source changes nothing, provided the source's keys are distinct and its
values are self-absorbing and idempotent fillers. -/
lemma deepFillObj_idem_aux {s : List (String × Json)} (hnd : keysNodup s = true)
    (hself : ∀ p ∈ s, deepFill p.2 p.2 = p.2)
    (hidem : ∀ p ∈ s, ∀ dv, deepFill (deepFill dv p.2) p.2 = deepFill dv p.2) :
    ∀ d, deepFillObj (deepFillObj d s) s = deepFillObj d s := by
  induction s with
  | nil => intro d; rfl
  | cons q rest ih =>
    obtain ⟨k, v⟩ := q
    obtain ⟨hany, hrest⟩ := keysNodup_cons hnd
    intro d
    have hself' := fun p hp => hself p (List.mem_cons_of_mem _ hp)
    have hidem' := fun p hp => hidem p (List.mem_cons_of_mem _ hp)
    cases hl : lookupJ d k with
    | none =>
      have h1 : lookupJ (d ++ [(k, v)]) k = some v := lookupJ_append_single_self hl v
      have h2 : lookupJ (deepFillObj (d ++ [(k, v)]) rest) k = some v := by
        rw [lookupJ_deepFillObj_not_mem hany, h1]
      rw [deepFillObj_cons_none hl, deepFillObj_cons_some h2,
        hself (k, v) (List.mem_cons_self _ _), setJ_eq_self h2]
      exact ih hrest hself' hidem' (d ++ [(k, v)])
    | some dv =>
      have h1 : lookupJ (setJ d k (deepFill dv v)) k = some (deepFill dv v) :=
        lookupJ_setJ_self hl _
      have h2 : lookupJ (deepFillObj (setJ d k (deepFill dv v)) rest) k
          = some (deepFill dv v) := by
        rw [lookupJ_deepFillObj_not_mem hany, h1]
      rw [deepFillObj_cons_some hl, deepFillObj_cons_some h2,
        hidem (k, v) (List.mem_cons_self _ _) dv, setJ_eq_self h2]
      exact ih hrest hself' hidem' _

/-- In the non-dict branches, a second fill with the same source changes
nothing, provided the source absorbs itself. -/
lemma deepFill_idem_of_not_both {dst src : Json}
    (hno : ¬(isObjJ dst = true ∧ isObjJ src = true))
    (hself : deepFill src src = src) :
    deepFill (deepFill dst src) src = deepFill dst src := by
  rw [deepFill_cases dst src hno]
  by_cases ha : (isArrJ dst || isArrJ src) = true
  · rw [if_pos ha]
    by_cases ht : truthyJ dst = true
    · rw [if_pos ht, deepFill_cases dst src hno, if_pos ha, if_pos ht]
    · rw [if_neg ht]
      exact hself
  · rw [if_neg ha]
    by_cases hd : (isDefaultJ dst && !isDefaultJ src) = true
    · rw [if_pos hd]
      exact hself
    · rw [if_neg hd, deepFill_cases dst src hno, if_neg ha, if_neg hd]

mutual
theorem deepFill_idem_main : ∀ dst src : Json, wfJ src = true →
    deepFill (deepFill dst src) src = deepFill dst src
  | dst, .obj s, h => by
    cases dst with
    | obj d =>
      obtain ⟨hnd, hwf⟩ := wfJ_obj h
      rw [deepFill, deepFill]
      rw [deepFillObj_idem_aux hnd
        (fun p hp => deepFill_self p.2 (wfObj_mem hwf hp))
        (fun p hp dv => deepFill_idem_obj s hwf p hp dv) d]
    | null => exact deepFill_idem_of_not_both (by simp [isObjJ]) (deepFill_self _ h)
    | bool b => exact deepFill_idem_of_not_both (by simp [isObjJ]) (deepFill_self _ h)
    | num q => exact deepFill_idem_of_not_both (by simp [isObjJ]) (deepFill_self _ h)
    | str t => exact deepFill_idem_of_not_both (by simp [isObjJ]) (deepFill_self _ h)
    | arr xs => exact deepFill_idem_of_not_both (by simp [isObjJ]) (deepFill_self _ h)
  | dst, .null, h =>
    deepFill_idem_of_not_both (by simp [isObjJ]) (deepFill_self _ h)
  | dst, .bool b, h =>
    deepFill_idem_of_not_both (by simp [isObjJ]) (deepFill_self _ h)
  | dst, .num q, h =>
    deepFill_idem_of_not_both (by simp [isObjJ]) (deepFill_self _ h)
  | dst, .str t, h =>
    deepFill_idem_of_not_both (by simp [isObjJ]) (deepFill_self _ h)
  | dst, .arr xs, h =>
    deepFill_idem_of_not_both (by simp [isObjJ]) (deepFill_self _ h)

theorem deepFill_idem_obj : ∀ s : List (String × Json), wfObj s = true →
    ∀ p ∈ s, ∀ dv, deepFill (deepFill dv p.2) p.2 = deepFill dv p.2
  | [], _, p, hp, _ => by simp at hp
  | (k0, v0) :: rest, h, p, hp, dv => by
    rw [wfObj, Bool.and_eq_true] at h
    rcases List.mem_cons.mp hp with he | he
    · subst he; exact deepFill_idem_main dv v0 h.1
    · exact deepFill_idem_obj rest h.2 p he dv
end

/-- Field-level characterisation of the dict branch of `_deep_fill`: for a
source dict with distinct keys, each key of the merged dict holds the
recursive fill of the two values when the key is in both, the existing
value when only in `dst`, the new value when only in `src`. -/
lemma lookupJ_deepFillObj {s : List (String × Json)} (hnd : keysNodup s = true) :
    ∀ (d : List (String × Json)) (k : String),
      lookupJ (deepFillObj d s) k =
        match lookupJ d k, lookupJ s k with
        | some dv, some sv => some (deepFill dv sv)
        | some dv, none => some dv
        | none, o => o := by
  induction s with
  | nil =>
    intro d k
    cases hd : lookupJ d k <;> simp [deepFillObj, lookupJ, hd]
  | cons q rest ih =>
    obtain ⟨k0, v0⟩ := q
    obtain ⟨hany, hrest⟩ := keysNodup_cons hnd
    intro d k
    cases hl : lookupJ d k0 with
    | none =>
      rw [deepFillObj_cons_none hl, ih hrest (d ++ [(k0, v0)]) k]
      by_cases hk : k0 = k
      · subst hk
        rw [lookupJ_append_single_self hl, lookupJ_eq_none_of_not_any hany, hl,
          lookupJ, if_pos rfl]
      · rw [lookupJ_append_single_ne hk, lookupJ, if_neg hk]
    | some dv =>
      rw [deepFillObj_cons_some hl, ih hrest _ k]
      by_cases hk : k0 = k
      · subst hk
        rw [lookupJ_setJ_self hl, lookupJ_eq_none_of_not_any hany, hl,
          lookupJ, if_pos rfl]
      · rw [lookupJ_setJ_ne hk, lookupJ, if_neg hk]

end DeepFillLemmas

/-- C1 (amended). Scalar leaves: the merge keeps the existing value whenever
it is non-default, takes the new value when the existing value is default
and the new one is non-default, and keeps the existing (default) value when
both are default.  List leaves: a non-empty existing list is kept.  Nested
dicts recurse field by field (key in both: recursive fill; key only in one
side: that value).  The spec's concrete example holds: merging new
`{a:0, b:"x"}` into existing `{a:5, b:""}` yields `{a:5, b:"x"}`. -/
theorem claim_C1_deepFill_semantics :
    (∀ dst src : Json, isArrJ dst = false → isArrJ src = false →
        isObjJ dst = false → isObjJ src = false →
        deepFill dst src =
          if isDefaultJ dst && !isDefaultJ src then src else dst)
    ∧ (∀ (xs : List Json) (src : Json), xs ≠ [] →
        deepFill (Json.arr xs) src = Json.arr xs)
    ∧ (∀ (d s : List (String × Json)), keysNodup s = true →
        deepFill (Json.obj d) (Json.obj s) = Json.obj (deepFillObj d s)
        ∧ ∀ k, lookupJ (deepFillObj d s) k =
            match lookupJ d k, lookupJ s k with
            | some dv, some sv => some (deepFill dv sv)
            | some dv, none => some dv
            | none, o => o)
    ∧ deepFill (Json.obj [("a", Json.num 5), ("b", Json.str "")])
        (Json.obj [("a", Json.num 0), ("b", Json.str "x")])
        = Json.obj [("a", Json.num 5), ("b", Json.str "x")] := by
  refine ⟨?_, ?_, ?_, rfl⟩
  · intro dst src ha1 ha2 ho1 ho2
    rw [deepFill_cases dst src (by simp [ho1]), ha1, ha2]
    simp
  · intro xs src hne
    rw [deepFill_cases (Json.arr xs) src (by simp [isObjJ])]
    have ht : truthyJ (Json.arr xs) = true := by
      simp [truthyJ, hne]
    simp [isArrJ, ht]
  · intro d s hnd
    exact ⟨by rw [deepFill], lookupJ_deepFillObj hnd d⟩

/-- C1, counterexample to the claim as stated: merging new `{a:""}` into
existing `{a:0}` keeps the existing default `0` — it does not take the new
value `""` even though the existing leaf is default, because `_deep_fill`
replaces a default leaf only when the incoming value is itself
non-default. -/
theorem claim_C1_cex :
    isDefaultJ (Json.num 0) = true
    ∧ deepFill (Json.obj [("a", Json.num 0)]) (Json.obj [("a", Json.str "")])
        = Json.obj [("a", Json.num 0)]
    ∧ Json.obj [("a", Json.num 0)] ≠ Json.obj [("a", Json.str "")] := by
  refine ⟨rfl, rfl, ?_⟩
  intro h
  injection h with h
  simp at h

/-- C1 witness: the amended theorem applied at concrete inputs. -/
theorem claim_C1_witness :
    deepFill (Json.num 0) (Json.num 7) = Json.num 7
    ∧ deepFill (Json.arr [Json.num 1]) (Json.arr []) = Json.arr [Json.num 1]
    ∧ lookupJ (deepFillObj [("a", Json.num 5)] [("a", Json.num 2), ("c", Json.num 3)]) "c"
        = some (Json.num 3) :=
  ⟨(claim_C1_deepFill_semantics.1 (Json.num 0) (Json.num 7) rfl rfl rfl rfl).trans rfl,
   claim_C1_deepFill_semantics.2.1 [Json.num 1] (Json.arr []) (by simp),
   ((claim_C1_deepFill_semantics.2.2.1 [("a", Json.num 5)]
      [("a", Json.num 2), ("c", Json.num 3)] rfl).2 "c").trans rfl⟩

/-- C6: the deep-fill merge is idempotent under repeated application of the
same new document: `deep_fill(deep_fill(E, N), N) = deep_fill(E, N)` for
every existing document `E` and (well-formed, i.e. dict keys pairwise
distinct as for every Python dict) new document `N`. -/
theorem claim_C6_deepFill_idempotent (e n : Json) (h : wfJ n = true) :
    deepFill (deepFill e n) n = deepFill e n :=
  deepFill_idem_main e n h

section ActionDedupe

lemma dedupeGo_spec : ∀ (rest acc : List ActionItem), (acc.map ActionItem.title).Nodup →
    ((dedupeGo acc (acc.map ActionItem.title) rest).map ActionItem.title).Nodup
    ∧ (∃ l, dedupeGo acc (acc.map ActionItem.title) rest = acc ++ l ∧ l.Sublist rest)
    ∧ ∀ t : String, (dedupeGo acc (acc.map ActionItem.title) rest).find? (fun a => a.title == t)
        = (acc ++ rest).find? (fun a => a.title == t) := by
  intro rest
  induction rest with
  | nil =>
    intro acc h
    exact ⟨h, ⟨[], by simp [dedupeGo], List.nil_sublist _⟩, by simp [dedupeGo]⟩
  | cons a rest ih =>
    intro acc h
    by_cases ht : a.title ∈ acc.map ActionItem.title
    · rw [show dedupeGo acc (acc.map ActionItem.title) (a :: rest)
          = dedupeGo acc (acc.map ActionItem.title) rest by rw [dedupeGo, if_pos ht]]
      obtain ⟨hnd, ⟨l, hl, hsub⟩, hfind⟩ := ih acc h
      refine ⟨hnd, ⟨l, hl, hsub.trans (List.sublist_cons_self a rest)⟩, ?_⟩
      intro t
      rw [hfind t, List.find?_append, List.find?_append]
      cases hacc : acc.find? (fun a => a.title == t) with
      | some b => simp
      | none =>
        by_cases hta : a.title = t
        · obtain ⟨b, hb, hbt⟩ := List.mem_map.mp ht
          have := List.find?_eq_none.mp hacc b hb
          rw [hbt, hta] at this
          simp at this
        · simp only [Option.none_or]
          rw [List.find?_cons_of_neg _ (by simpa using hta)]
    · rw [show dedupeGo acc (acc.map ActionItem.title) (a :: rest)
          = dedupeGo (acc ++ [a]) (acc.map ActionItem.title ++ [a.title]) rest by
            rw [dedupeGo, if_neg ht]]
      have hmap : acc.map ActionItem.title ++ [a.title] = (acc ++ [a]).map ActionItem.title := by
        simp
      rw [hmap]
      have hnd' : ((acc ++ [a]).map ActionItem.title).Nodup := by
        rw [List.map_append, List.nodup_append]
        refine ⟨h, List.nodup_singleton _, ?_⟩
        intro x hx hx2
        simp only [List.map_cons, List.map_nil, List.mem_singleton] at hx2
        exact ht (hx2 ▸ hx)
      obtain ⟨hnd, ⟨l, hl, hsub⟩, hfind⟩ := ih (acc ++ [a]) hnd'
      refine ⟨hnd, ⟨a :: l, by simpa using hl, (hsub.cons₂ a)⟩, ?_⟩
      intro t
      rw [hfind t]
      simp [List.append_assoc]

/-- C2: for every stored actions list with pairwise-distinct titles and
every batch of newly collected actions, the append-dedupe merge keeps the
existing actions as an unchanged left segment, appends a subsequence of the
new actions after them in order, yields a stored list whose titles are
again pairwise distinct, and for every title the stored action carrying it
is the first action with that title in existing-then-new order (so a new
action whose title is already present is dropped, first occurrence wins,
case-sensitively). -/
theorem claim_C2_action_dedupe (ex neu : List ActionItem)
    (h : (ex.map ActionItem.title).Nodup) :
    ((appendDedupe ex neu).map ActionItem.title).Nodup
    ∧ (∃ l, appendDedupe ex neu = ex ++ l ∧ l.Sublist neu)
    ∧ ∀ t : String, (appendDedupe ex neu).find? (fun a => a.title == t)
        = (ex ++ neu).find? (fun a => a.title == t) :=
  dedupeGo_spec neu ex h

/-- C2 witness: appending the action titled `"Amplify: X"` twice across two
runs leaves exactly one stored action with that title. -/
theorem claim_C2_witness :
    appendDedupe (appendDedupe [] [⟨"Amplify: X", "CMO", 2, "r"⟩])
        [⟨"Amplify: X", "CMO", 2, "r"⟩]
      = [⟨"Amplify: X", "CMO", 2, "r"⟩]
    ∧ ((appendDedupe (appendDedupe [] [⟨"Amplify: X", "CMO", 2, "r"⟩])
        [⟨"Amplify: X", "CMO", 2, "r"⟩]).map ActionItem.title).Nodup
    ∧ List.count "Amplify: X"
        ((appendDedupe (appendDedupe [] [⟨"Amplify: X", "CMO", 2, "r"⟩])
          [⟨"Amplify: X", "CMO", 2, "r"⟩]).map ActionItem.title) = 1 :=
  ⟨rfl,
   (claim_C2_action_dedupe (appendDedupe [] [⟨"Amplify: X", "CMO", 2, "r"⟩])
      [⟨"Amplify: X", "CMO", 2, "r"⟩] (by decide)).1,
   by decide⟩

end ActionDedupe

/-- C6 witness: idempotence at a concrete pair of documents. -/
theorem claim_C6_witness :
    deepFill (deepFill (Json.obj [("a", Json.num 0), ("b", Json.str "y")])
        (Json.obj [("a", Json.num 3), ("c", Json.arr [Json.num 1])]))
      (Json.obj [("a", Json.num 3), ("c", Json.arr [Json.num 1])])
    = deepFill (Json.obj [("a", Json.num 0), ("b", Json.str "y")])
        (Json.obj [("a", Json.num 3), ("c", Json.arr [Json.num 1])]) :=
  claim_C6_deepFill_idempotent _ _ rfl


section CeoMapper

/-- If `map_ceo_to_scoreboard` returns at all, its three `max`-guarded risk
fields equal the integer parsed from the FIRST line containing the
respective keyword (`max` is only taken against the initial 0). -/
lemma mapCeo_ok_risk {today text : String} {sb : Scoreboard}
    (h : mapCeo today text = Except.ok sb) :
    sb.risk_high = riskHighOf (arrowNorm text.data)
    ∧ sb.risk_medium = riskMediumOf (arrowNorm text.data)
    ∧ sb.risk_score = riskScoreOf (arrowNorm text.data) := by
  unfold mapCeo at h
  dsimp only [] at h
  split at h
  · exact absurd h (by simp)
  · split at h
    · exact absurd h (by simp)
    · injection h with h
      subst h
      exact ⟨rfl, rfl, rfl⟩

/-- C3 (amended): the executive-summary extractor sets `risk.high` (and
likewise `risk.medium`, `risk.score`) to the integer parsed from the FIRST
line containing the keyword — the `max` in the source only compares with
the field's initial 0 — so values on later matching lines are ignored
rather than entering a maximum. -/
theorem claim_C3_risk_first_line (today text : String) (sb : Scoreboard)
    (h : mapCeo today text = Except.ok sb) :
    (sb.risk_high = riskHighOf (arrowNorm text.data)
      ∧ sb.risk_medium = riskMediumOf (arrowNorm text.data)
      ∧ sb.risk_score = riskScoreOf (arrowNorm text.data))
    ∧ riskHighOf (arrowNorm text.data)
        = (if !(pyFindLine (arrowNorm text.data) ["high".data]).isEmpty
           then max 0 (pyInt (pyFindLine (arrowNorm text.data) ["high".data]))
           else 0) :=
  ⟨mapCeo_ok_risk h, rfl⟩

/-- C3, counterexample to the claim as stated: in a body whose lines
"high 2" and "high 5" both carry the severity keyword, the extractor
stores 2 (the first line's value), not the maximum 5 across matching
lines. -/
theorem claim_C3_cex :
    mapCeo "d" c3Body = Except.ok c3Sb
    ∧ c3Sb.risk_high = 2
    ∧ specRiskMaxLines (arrowNorm c3Body.data) "high".data = 5
    ∧ (2 : ℕ) ≠ 5 :=
  ⟨rfl, rfl, rfl, by decide⟩

/-- C3 witness: the amended theorem applied to a concrete body. -/
theorem claim_C3_witness :
    (c3Sb.risk_high = riskHighOf (arrowNorm c3Body.data)
      ∧ c3Sb.risk_medium = riskMediumOf (arrowNorm c3Body.data)
      ∧ c3Sb.risk_score = riskScoreOf (arrowNorm c3Body.data))
    ∧ riskHighOf (arrowNorm c3Body.data)
        = (if !(pyFindLine (arrowNorm c3Body.data) ["high".data]).isEmpty
           then max 0 (pyInt (pyFindLine (arrowNorm c3Body.data) ["high".data]))
           else 0) :=
  claim_C3_risk_first_line "d" c3Body c3Sb rfl

/-- C7: on the spec's end-to-end body, the composite MRR pattern does
parse `realized=500, target=1000` in one pass (and the autonomy and MTTR
fields would read 90 and 4.2) — but `map_ceo_to_scoreboard` never returns
them: the body has no "Top theme:" line, so the topic step evaluates
`"".splitlines()[0]`, which raises `IndexError`, contradicting the
function's own docstring "Anything not present stays at 0". -/
theorem claim_C7_mapCeo_raises :
    mrrSearch (arrowNorm "Net New MRR: $500 (target $1000)\nAutonomy: 90%\nMTTR: 4.2m".data)
      = some ("500".data, some ("1000".data))
    ∧ mrrStep (arrowNorm "Net New MRR: $500 (target $1000)\nAutonomy: 90%\nMTTR: 4.2m".data)
      = Except.ok (500, 1000)
    ∧ pyFindLine (arrowNorm "Net New MRR: $500 (target $1000)\nAutonomy: 90%\nMTTR: 4.2m".data)
        ["autonomy".data] = "Autonomy: 90%".data
    ∧ mapCeo "2026-10-12" "Net New MRR: $500 (target $1000)\nAutonomy: 90%\nMTTR: 4.2m"
      = Except.error () :=
  ⟨rfl, rfl, rfl, rfl⟩

end CeoMapper

section OperationalMapper

lemma stripPrefCI_isSome_pref : ∀ (ns hs r : List Char),
    stripPrefCI ns hs = some r → isPrefCL (lowerCL ns) (lowerCL hs) = true := by
  intro ns
  induction ns with
  | nil => intro hs r _; rfl
  | cons n ns ih =>
    intro hs r h
    cases hs with
    | nil => exact absurd h (by simp [stripPrefCI])
    | cons c t =>
      rw [stripPrefCI] at h
      by_cases he : (n.toLower == c.toLower) = true
      · rw [if_pos he] at h
        rw [lowerCL, lowerCL, List.map_cons, List.map_cons, isPrefCL,
          Bool.and_eq_true]
        rw [lowerCL] at ih
        exact ⟨he, ih t r h⟩
      · rw [if_neg he] at h
        exact absurd h (by simp)

/-- A text with no case-insensitive occurrence of `bottleneck` never
matches the bottleneck regex. -/
lemma bottleneckSearch_eq_none : ∀ cs : List Char,
    containsCL (lowerCL cs) ("bottleneck".data) = false →
    bottleneckSearch cs = none := by
  intro cs
  induction cs with
  | nil => intro _; rfl
  | cons c t ih =>
    intro h
    rw [lowerCL, List.map_cons, containsCL, Bool.or_eq_false_iff] at h
    rw [bottleneckSearch]
    have hat : bottleneckAt (c :: t) = none := by
      cases hsp : stripPrefCI ("bottleneck".data) (c :: t) with
      | none => rw [bottleneckAt, hsp]
      | some r =>
        have hp := stripPrefCI_isSome_pref _ _ _ hsp
        have hlow : lowerCL ("bottleneck".data) = "bottleneck".data := by decide
        rw [hlow, lowerCL, List.map_cons] at hp
        rw [hp] at h
        exact absurd h.1 (by simp)
    rw [hat]
    exact ih (by rw [lowerCL]; exact h.2)

/-- C8 (amended): the operational extractor emits exactly one Insight
(confidence 0.8, source "operational_email", the current timestamp) and
exactly one Decision (owner "COO", due = current date + 3 days) when the
body matches `Bottleneck` + one separator + non-empty content terminated
by a LINE BREAK; it never emits more than one of either; and it emits
empty lists whenever no such match exists — in particular whenever
"bottleneck" does not occur at all.  (A trailing "Bottleneck:" line
without a final newline does NOT fire, which is what the counterexample
exhibits.) -/
theorem claim_C8_bottleneck_rule (ts due text : String) :
    ((mapOperational ts due text).1.length ≤ 1
      ∧ (mapOperational ts due text).2.length = (mapOperational ts due text).1.length)
    ∧ (containsCL (lowerCL text.data) ("bottleneck".data) = false →
        mapOperational ts due text = ([], []))
    ∧ ∀ g, bottleneckSearch text.data = some g →
        mapOperational ts due text =
          ([⟨"operational_risk",
             "Process bottleneck identified: " ++ (⟨stripCL g⟩ : String),
             4 / 5, "operational_email", ts⟩],
           [⟨"Resolve bottleneck: " ++ (⟨stripCL g⟩ : String), "high", "COO", due,
             "Critical operational efficiency issue"⟩]) := by
  refine ⟨?_, ?_, ?_⟩
  · unfold mapOperational
    cases bottleneckSearch text.data <;> simp
  · intro h
    unfold mapOperational
    rw [bottleneckSearch_eq_none text.data h]
  · intro g hg
    unfold mapOperational
    rw [hg]

/-- C8, counterexample to the claim as stated: "Bottleneck: server down"
IS a `Bottleneck:`-labeled line, yet — lacking a trailing line terminator,
which the regex `Bottleneck[:\s](.+?)[\r\n]` demands — the extractor emits
no insight and no decision. -/
theorem claim_C8_cex :
    ((pySplitlines ("Bottleneck: server down".data)).any
        (fun l => containsCL (lowerCL l) ("bottleneck:".data))) = true
    ∧ mapOperational "ts" "due" "Bottleneck: server down" = ([], []) :=
  ⟨rfl, rfl⟩

/-- C8 witness: the amended theorem applied to concrete bodies, both the
no-occurrence case and a terminated bottleneck line. -/
theorem claim_C8_witness :
    mapOperational "T" "D" "ops fine today" = ([], [])
    ∧ mapOperational "T" "D" "Bottleneck: db locks\nmore" =
        ([⟨"operational_risk", "Process bottleneck identified: db locks",
           4 / 5, "operational_email", "T"⟩],
         [⟨"Resolve bottleneck: db locks", "high", "COO", "D",
           "Critical operational efficiency issue"⟩]) :=
  ⟨(claim_C8_bottleneck_rule "T" "D" "ops fine today").2.1 rfl,
   ((claim_C8_bottleneck_rule "T" "D" "Bottleneck: db locks\nmore").2.2
      (" db locks".data) rfl).trans (by rfl)⟩

end OperationalMapper

section BodyNormalizer

lemma walkP_mk (rh : List ℕ → String × String) (dp : List ℕ → String)
    (mime : String) (bdata : Option String) (parts : List Payload) :
    walkP rh dp (Payload.mk mime bdata parts) =
      match walkParts rh dp parts with
      | Except.error e => Except.error e
      | Except.ok (some b) => Except.ok (some b)
      | Except.ok none => nodeBody rh dp mime bdata := rfl

lemma cands_mk (mime : String) (bdata : Option String) (parts : List Payload) :
    cands (Payload.mk mime bdata parts) = candsList parts ++ ownCand mime bdata := rfl

lemma scanCands_append (rh : List ℕ → String × String) (dp : List ℕ → String) :
    ∀ xs ys, scanCands rh dp (xs ++ ys) =
      match scanCands rh dp xs with
      | Except.error e => Except.error e
      | Except.ok (some b) => Except.ok (some b)
      | Except.ok none => scanCands rh dp ys := by
  intro xs
  induction xs with
  | nil => intro ys; rfl
  | cons q rest ih =>
    intro ys
    obtain ⟨m, d⟩ := q
    rw [List.cons_append, scanCands, scanCands]
    cases candStep rh dp m d with
    | error e => rfl
    | ok o =>
      cases o with
      | some b => rfl
      | none => exact ih ys

/-- One node's contribution equals the reference pass over its (zero or
one) own candidates. -/
lemma nodeBody_eq_scan (rh : List ℕ → String × String) (dp : List ℕ → String)
    (mime : String) (bdata : Option String) :
    nodeBody rh dp mime bdata = scanCands rh dp (ownCand mime bdata) := by
  cases bdata with
  | none => rfl
  | some s =>
    by_cases hs : (!s.isEmpty) = true
    · rw [nodeBody, ownCand, if_pos hs, if_pos hs, scanCands]
      cases candStep rh dp mime s with
      | error e => rfl
      | ok o => cases o <;> rfl
    · rw [nodeBody, ownCand, if_neg hs, if_neg hs]
      rfl

mutual
theorem walkP_eq (rh : List ℕ → String × String) (dp : List ℕ → String) :
    ∀ p : Payload, walkP rh dp p = scanCands rh dp (cands p)
  | .mk mime bdata parts => by
    rw [walkP_mk, walkParts_eq rh dp parts, cands_mk, scanCands_append]
    cases scanCands rh dp (candsList parts) with
    | error e => rfl
    | ok o =>
      cases o with
      | some b => rfl
      | none => exact nodeBody_eq_scan rh dp mime bdata

theorem walkParts_eq (rh : List ℕ → String × String) (dp : List ℕ → String) :
    ∀ ps : List Payload, walkParts rh dp ps = scanCands rh dp (candsList ps)
  | [] => rfl
  | p :: ps => by
    rw [show walkParts rh dp (p :: ps) =
        (match walkP rh dp p with
         | Except.error e => Except.error e
         | Except.ok (some b) => Except.ok (some b)
         | Except.ok none => walkParts rh dp ps) from rfl,
      walkP_eq rh dp p,
      show candsList (p :: ps) = cands p ++ candsList ps from rfl,
      scanCands_append]
    cases scanCands rh dp (cands p) with
    | error e => rfl
    | ok o =>
      cases o with
      | some b => rfl
      | none => exact walkParts_eq rh dp ps
end

lemma scanCands_ok (rh : List ℕ → String × String) (dp : List ℕ → String) :
    ∀ l, (l.all fun c => (b64decode c.2).isSome) = true →
      ∃ r, scanCands rh dp l = Except.ok r := by
  intro l
  induction l with
  | nil => intro _; exact ⟨none, rfl⟩
  | cons q rest ih =>
    intro h
    obtain ⟨m, d⟩ := q
    rw [List.all_cons, Bool.and_eq_true] at h
    have hstep : ∃ o, candStep rh dp m d = Except.ok o := by
      rw [candStep]
      cases hd : b64decode d with
      | none => rw [hd] at h; exact absurd h.1 (by simp)
      | some raw =>
        by_cases h1 : containsCL m.data ("text/html".data) = true
        · exact ⟨some ⟨(rh raw).1, (rh raw).2⟩, by simp [h1]⟩
        · by_cases h2 : containsCL m.data ("text/plain".data) = true
          · exact ⟨some ⟨"", dp raw⟩, by simp [h1, h2]⟩
          · exact ⟨none, by simp [h1, h2]⟩
    obtain ⟨o, ho⟩ := hstep
    rw [scanCands, ho]
    cases o with
    | some b => exact ⟨some b, rfl⟩
    | none => exact ih h.2

/-- C5 (amended): `_parse_body` never raises and returns an `{html, text}`
pair for every payload tree all of whose body-data fields are decodable
base64 — and returns the empty pair when no node carries body bytes; but a
node whose data is NOT valid base64 makes it raise (`binascii.Error`
propagates out of `base64.urlsafe_b64decode`), for any MIME type and any
html/plain renderers. -/
theorem claim_C5_parse_body_total (rh : List ℕ → String × String)
    (dp : List ℕ → String) (p : Payload) :
    (allValidB64 p = true → ∃ b, parseBody rh dp p = Except.ok b)
    ∧ (cands p = [] → parseBody rh dp p = Except.ok ⟨"", ""⟩) := by
  constructor
  · intro h
    obtain ⟨r, hr⟩ := scanCands_ok rh dp (cands p) h
    rw [parseBody, walkP_eq, hr]
    cases r with
    | some b => exact ⟨b, rfl⟩
    | none => exact ⟨⟨"", ""⟩, rfl⟩
  · intro h
    rw [parseBody, walkP_eq, h]
    rfl

/-- C5, counterexample to the claim as stated: on the single-node tree
whose body data is the malformed base64 string `"x"`, `_parse_body`
raises (`binascii.Error`: 1 data character) instead of returning a
`{html, text}` pair. -/
theorem claim_C5_cex :
    parseBody (fun _ => ("", "")) (fun _ => "")
      (Payload.mk "text/plain" (some "x") []) = Except.error () := rfl

/-- C5 witness: the amended theorem applied to a concrete valid tree and a
concrete tree with no body bytes. -/
theorem claim_C5_witness :
    (∃ b, parseBody (fun _ => ("H", "h")) (fun _ => "p")
        (Payload.mk "multipart/mixed" none
          [Payload.mk "text/plain" (some "YWJj") []]) = Except.ok b)
    ∧ parseBody (fun _ => ("H", "h")) (fun _ => "p")
        (Payload.mk "multipart/mixed" none [Payload.mk "image/png" none []])
      = Except.ok ⟨"", ""⟩ :=
  ⟨(claim_C5_parse_body_total (fun _ => ("H", "h")) (fun _ => "p")
      (Payload.mk "multipart/mixed" none
        [Payload.mk "text/plain" (some "YWJj") []])).1 rfl,
   (claim_C5_parse_body_total (fun _ => ("H", "h")) (fun _ => "p")
      (Payload.mk "multipart/mixed" none [Payload.mk "image/png" none []])).2 rfl⟩

/-- C4 (amended): `_parse_body` returns the FIRST body-carrying node in
walk order — a node's parts before its own body, parts left to right —
with `text/html` preferred over `text/plain` only WITHIN one node's MIME
test, not across nodes.  When that first node is a `text/html` node with
decodable data, the html rendering is returned. -/
theorem claim_C4_html_when_first (rh : List ℕ → String × String)
    (dp : List ℕ → String) (p : Payload) (m d : String) (raw : List ℕ)
    (rest : List (String × String)) (h1 : cands p = (m, d) :: rest)
    (h2 : containsCL m.data ("text/html".data) = true)
    (h3 : b64decode d = some raw) :
    parseBody rh dp p = Except.ok ⟨(rh raw).1, (rh raw).2⟩ := by
  rw [parseBody, walkP_eq, h1, scanCands, candStep, h3]
  simp [h2]

/-- C4, counterexample to the claim as stated: both a `text/plain` and a
`text/html` node carry body bytes at the SAME depth (both are direct
parts), the plain node listed first; `_parse_body` returns the decoded
plain node, not the html node the claim promises. -/
theorem claim_C4_cex :
    parseBody (fun _ => ("H", "h")) (fun _ => "p")
      (Payload.mk "multipart/alternative" none
        [Payload.mk "text/plain" (some "YWJj") [],
         Payload.mk "text/html" (some "YWJj") []])
      = Except.ok ⟨"", "p"⟩
    ∧ (Except.ok (⟨"", "p"⟩ : BodyPair) : Except Unit BodyPair)
        ≠ Except.ok ⟨"H", "h"⟩ := by
  refine ⟨rfl, ?_⟩
  intro h
  injection h with h
  injection h with h1 h2
  exact absurd h2 (by decide)

/-- C4 witness: the amended theorem at a concrete tree whose first
body-carrying node in walk order is the html node. -/
theorem claim_C4_witness :
    parseBody (fun _ => ("H", "h")) (fun _ => "p")
      (Payload.mk "multipart/alternative" none
        [Payload.mk "text/html" (some "YWJj") [],
         Payload.mk "text/plain" (some "YWJj") []])
      = Except.ok ⟨"H", "h"⟩ :=
  claim_C4_html_when_first (fun _ => ("H", "h")) (fun _ => "p") _
    "text/html" "YWJj" [97, 98, 99] [("text/plain", "YWJj")] rfl rfl rfl

end BodyNormalizer

section WritePhase

lemma writePhase_scoreboard_off (c : Collected) (st : Store) (h : c.ceo = none) :
    (writePhase c st).store.scoreboard = st.scoreboard
    ∧ DocId.scoreboard ∉ (writePhase c st).reads
    ∧ DocId.scoreboard ∉ (writePhase c st).writes := by
  simp only [writePhase, stepScoreboard, stepActions, stepMeetings, stepInsights,
    stepDecisions, h]
  split <;> split <;> split <;> split <;> simp

lemma writePhase_actions_off (c : Collected) (st : Store) (h : c.actions = []) :
    (writePhase c st).store.actions = st.actions
    ∧ DocId.actions ∉ (writePhase c st).reads
    ∧ DocId.actions ∉ (writePhase c st).writes := by
  simp only [writePhase, stepScoreboard, stepActions, stepMeetings, stepInsights,
    stepDecisions, h, List.isEmpty_nil, Bool.not_true, Bool.false_eq_true, if_false]
  cases c.ceo with
  | none => repeat' split
            all_goals simp
  | some j => repeat' split
              all_goals simp

lemma writePhase_meetings_off (c : Collected) (st : Store) (h : c.meetings = []) :
    (writePhase c st).store.meetings = st.meetings
    ∧ DocId.meetings ∉ (writePhase c st).reads
    ∧ DocId.meetings ∉ (writePhase c st).writes := by
  simp only [writePhase, stepScoreboard, stepActions, stepMeetings, stepInsights,
    stepDecisions, h, List.isEmpty_nil, Bool.not_true, Bool.false_eq_true, if_false]
  cases c.ceo with
  | none => repeat' split
            all_goals simp
  | some j => repeat' split
              all_goals simp

lemma writePhase_insights_off (c : Collected) (st : Store) (h : c.insights = []) :
    (writePhase c st).store.insights = st.insights
    ∧ DocId.insights ∉ (writePhase c st).reads
    ∧ DocId.insights ∉ (writePhase c st).writes := by
  simp only [writePhase, stepScoreboard, stepActions, stepMeetings, stepInsights,
    stepDecisions, h, List.isEmpty_nil, Bool.not_true, Bool.false_eq_true, if_false]
  cases c.ceo with
  | none => repeat' split
            all_goals simp
  | some j => repeat' split
              all_goals simp

lemma writePhase_decisions_off (c : Collected) (st : Store) (h : c.decisions = []) :
    (writePhase c st).store.decisions = st.decisions
    ∧ DocId.decisions ∉ (writePhase c st).reads
    ∧ DocId.decisions ∉ (writePhase c st).writes := by
  simp only [writePhase, stepScoreboard, stepActions, stepMeetings, stepInsights,
    stepDecisions, h, List.isEmpty_nil, Bool.not_true, Bool.false_eq_true, if_false]
  cases c.ceo with
  | none => repeat' split
            all_goals simp
  | some j => repeat' split
              all_goals simp

/-- C10: a store document of a kind for which the batch collected no new
records is left completely unchanged, and it is neither read nor written:
no CEO summary mapped ⇒ scoreboard.json untouched; empty collected
actions/meetings/insights/decisions ⇒ the corresponding file untouched.
Conversely a document that was read or written had records collected. -/
theorem claim_C10_untouched_when_empty (c : Collected) (st : Store) :
    ((c.ceo = none →
        (writePhase c st).store.scoreboard = st.scoreboard
        ∧ DocId.scoreboard ∉ (writePhase c st).reads
        ∧ DocId.scoreboard ∉ (writePhase c st).writes)
      ∧ (DocId.scoreboard ∈ (writePhase c st).reads
          ∨ DocId.scoreboard ∈ (writePhase c st).writes → c.ceo ≠ none))
    ∧ ((c.actions = [] →
        (writePhase c st).store.actions = st.actions
        ∧ DocId.actions ∉ (writePhase c st).reads
        ∧ DocId.actions ∉ (writePhase c st).writes)
      ∧ (DocId.actions ∈ (writePhase c st).reads
          ∨ DocId.actions ∈ (writePhase c st).writes → c.actions ≠ []))
    ∧ ((c.meetings = [] →
        (writePhase c st).store.meetings = st.meetings
        ∧ DocId.meetings ∉ (writePhase c st).reads
        ∧ DocId.meetings ∉ (writePhase c st).writes)
      ∧ (DocId.meetings ∈ (writePhase c st).reads
          ∨ DocId.meetings ∈ (writePhase c st).writes → c.meetings ≠ []))
    ∧ ((c.insights = [] →
        (writePhase c st).store.insights = st.insights
        ∧ DocId.insights ∉ (writePhase c st).reads
        ∧ DocId.insights ∉ (writePhase c st).writes)
      ∧ (DocId.insights ∈ (writePhase c st).reads
          ∨ DocId.insights ∈ (writePhase c st).writes → c.insights ≠ []))
    ∧ ((c.decisions = [] →
        (writePhase c st).store.decisions = st.decisions
        ∧ DocId.decisions ∉ (writePhase c st).reads
        ∧ DocId.decisions ∉ (writePhase c st).writes)
      ∧ (DocId.decisions ∈ (writePhase c st).reads
          ∨ DocId.decisions ∈ (writePhase c st).writes → c.decisions ≠ [])) := by
  refine ⟨⟨writePhase_scoreboard_off c st, ?_⟩,
    ⟨writePhase_actions_off c st, ?_⟩,
    ⟨writePhase_meetings_off c st, ?_⟩,
    ⟨writePhase_insights_off c st, ?_⟩,
    ⟨writePhase_decisions_off c st, ?_⟩⟩
  · intro hm hnone
    rcases hm with h1 | h1
    · exact (writePhase_scoreboard_off c st hnone).2.1 h1
    · exact (writePhase_scoreboard_off c st hnone).2.2 h1
  · intro hm hnil
    rcases hm with h1 | h1
    · exact (writePhase_actions_off c st hnil).2.1 h1
    · exact (writePhase_actions_off c st hnil).2.2 h1
  · intro hm hnil
    rcases hm with h1 | h1
    · exact (writePhase_meetings_off c st hnil).2.1 h1
    · exact (writePhase_meetings_off c st hnil).2.2 h1
  · intro hm hnil
    rcases hm with h1 | h1
    · exact (writePhase_insights_off c st hnil).2.1 h1
    · exact (writePhase_insights_off c st hnil).2.2 h1
  · intro hm hnil
    rcases hm with h1 | h1
    · exact (writePhase_decisions_off c st hnil).2.1 h1
    · exact (writePhase_decisions_off c st hnil).2.2 h1

/-- C10 witness: with nothing collected, every document is untouched and
untraced; and a batch that wrote actions did collect an action. -/
theorem claim_C10_witness :
    ((writePhase ⟨none, [], [], [], []⟩
        ⟨FileState.absent, FileState.absent, FileState.absent,
         FileState.absent, FileState.absent⟩).store.scoreboard
      = FileState.absent
      ∧ DocId.scoreboard ∉ (writePhase ⟨none, [], [], [], []⟩
          ⟨FileState.absent, FileState.absent, FileState.absent,
           FileState.absent, FileState.absent⟩).reads)
    ∧ (DocId.actions ∈ (writePhase ⟨none, [⟨"t", "o", 1, "r"⟩], [], [], []⟩
        ⟨FileState.absent, FileState.absent, FileState.absent,
         FileState.absent, FileState.absent⟩).writes
        → ([⟨"t", "o", 1, "r"⟩] : List ActionItem) ≠ []) :=
  ⟨⟨((claim_C10_untouched_when_empty ⟨none, [], [], [], []⟩
      ⟨FileState.absent, FileState.absent, FileState.absent,
       FileState.absent, FileState.absent⟩).1.1 rfl).1,
    ((claim_C10_untouched_when_empty ⟨none, [], [], [], []⟩
      ⟨FileState.absent, FileState.absent, FileState.absent,
       FileState.absent, FileState.absent⟩).1.1 rfl).2.1⟩,
   fun hw => (claim_C10_untouched_when_empty ⟨none, [⟨"t", "o", 1, "r"⟩], [], [], []⟩
      ⟨FileState.absent, FileState.absent, FileState.absent,
       FileState.absent, FileState.absent⟩).2.1.2 (Or.inr hw)⟩

/-- C9: an unreadable/invalid persisted document at merge time is handled
like an absent one: every read of a corrupt document yields the defined
default (`{}` for the scoreboard, `[]` for the collections), and the write
phase — a total function, the run continues — produces the same result on
a corrupt document as on an absent one whenever that document's merge
actually runs. -/
theorem claim_C9_corrupt_as_absent (c : Collected) (st : Store) :
    (readOr (Json.obj []) (FileState.corrupt : FileState Json) = Json.obj []
      ∧ readOr ([] : List ActionItem) FileState.corrupt = []
      ∧ readOr ([] : List Json) FileState.corrupt = []
      ∧ readOr ([] : List InsightR) FileState.corrupt = []
      ∧ readOr ([] : List DecisionR) FileState.corrupt = [])
    ∧ (ceoGuard c.ceo = true →
        writePhase c { st with scoreboard := FileState.corrupt }
          = writePhase c { st with scoreboard := FileState.absent })
    ∧ (c.actions ≠ [] →
        writePhase c { st with actions := FileState.corrupt }
          = writePhase c { st with actions := FileState.absent })
    ∧ (c.meetings ≠ [] →
        writePhase c { st with meetings := FileState.corrupt }
          = writePhase c { st with meetings := FileState.absent })
    ∧ (c.insights ≠ [] →
        writePhase c { st with insights := FileState.corrupt }
          = writePhase c { st with insights := FileState.absent })
    ∧ (c.decisions ≠ [] →
        writePhase c { st with decisions := FileState.corrupt }
          = writePhase c { st with decisions := FileState.absent }) := by
  refine ⟨⟨rfl, rfl, rfl, rfl, rfl⟩, ?_, ?_, ?_, ?_, ?_⟩
  · intro h
    cases hc : c.ceo with
    | none => rw [hc] at h; exact absurd h (by simp [ceoGuard])
    | some j =>
      rw [hc] at h
      simp only [ceoGuard] at h
      simp [writePhase, stepScoreboard, hc, h, readOr]
  · intro h
    have h' : c.actions.isEmpty = false := by
      simpa using h
    cases hc : c.ceo with
    | none =>
      simp [writePhase, stepScoreboard, stepActions, hc, h', readOr]
    | some j =>
      by_cases ht : truthyJ j = true <;>
        simp [writePhase, stepScoreboard, stepActions, hc, ht, h', readOr]
  · intro h
    have h' : c.meetings.isEmpty = false := by
      simpa using h
    cases hc : c.ceo with
    | none =>
      by_cases h2 : c.actions.isEmpty <;>
        simp [writePhase, stepScoreboard, stepActions, stepMeetings, hc, h', h2, readOr]
    | some j =>
      by_cases ht : truthyJ j = true <;> by_cases h2 : c.actions.isEmpty <;>
        simp [writePhase, stepScoreboard, stepActions, stepMeetings, hc, ht, h', h2, readOr]
  · intro h
    have h' : c.insights.isEmpty = false := by
      simpa using h
    cases hc : c.ceo with
    | none =>
      by_cases h2 : c.actions.isEmpty <;> by_cases h3 : c.meetings.isEmpty <;>
        simp [writePhase, stepScoreboard, stepActions, stepMeetings, stepInsights,
          hc, h', h2, h3, readOr]
    | some j =>
      by_cases ht : truthyJ j = true <;> by_cases h2 : c.actions.isEmpty <;>
        by_cases h3 : c.meetings.isEmpty <;>
        simp [writePhase, stepScoreboard, stepActions, stepMeetings, stepInsights,
          hc, ht, h', h2, h3, readOr]
  · intro h
    have h' : c.decisions.isEmpty = false := by
      simpa using h
    cases hc : c.ceo with
    | none =>
      by_cases h2 : c.actions.isEmpty <;> by_cases h3 : c.meetings.isEmpty <;>
        by_cases h4 : c.insights.isEmpty <;>
        simp [writePhase, stepScoreboard, stepActions, stepMeetings, stepInsights,
          stepDecisions, hc, h', h2, h3, h4, readOr]
    | some j =>
      by_cases ht : truthyJ j = true <;> by_cases h2 : c.actions.isEmpty <;>
        by_cases h3 : c.meetings.isEmpty <;> by_cases h4 : c.insights.isEmpty <;>
        simp [writePhase, stepScoreboard, stepActions, stepMeetings, stepInsights,
          stepDecisions, hc, ht, h', h2, h3, h4, readOr]

/-- C9 witness: the theorem at a concrete collected batch and store. -/
theorem claim_C9_witness :
    writePhase ⟨none, [⟨"t", "o", 1, "r"⟩], [], [], []⟩
      ⟨FileState.absent, FileState.corrupt, FileState.absent,
       FileState.absent, FileState.absent⟩
    = writePhase ⟨none, [⟨"t", "o", 1, "r"⟩], [], [], []⟩
      ⟨FileState.absent, FileState.absent, FileState.absent,
       FileState.absent, FileState.absent⟩ :=
  (claim_C9_corrupt_as_absent ⟨none, [⟨"t", "o", 1, "r"⟩], [], [], []⟩
    ⟨FileState.absent, FileState.absent, FileState.absent,
     FileState.absent, FileState.absent⟩).2.2.1 (by decide)

end WritePhase
